import Mathlib

/-!
# Verification of the Four Thousand Weeks life-calendar core

A shallow embedding of the temporal calculus, annotation-index builder,
life-calendar state, and import codec of the repository.

Modelling conventions:
* Calendar dates are modelled at day granularity as `Int` day numbers
  (days since the civil epoch 1970-01-01).  All date values handled by the
  core are first normalized to midnight (`startOfDay`), so `startOfDay`
  is the identity in this embedding.
* JavaScript `number` values that hold week indices or year counts are
  modelled as `Int`.
* date-fns `differenceInWeeks` truncates toward zero (its default
  rounding method), which is `Int.tdiv` here.
* The Zustand store (`lifeCalendarStore.ts`) is modelled as a record
  `LifeCalendarState`; every store action becomes a function from state
  to state.  The `weekMap` (a JS `Map<number, …>`) is modelled as a
  function `Int → Option WeekEntry`, `Map.get` as application and
  `Map.set` as pointwise update.
-/

/-! ## Temporal Calculus (src/lib/dateUtils.ts) -/

/-- The start/end pair returned by `getWeekRange`.  The source field named
`end` is called `stop` here because `end` is a Lean keyword. -/
structure DateRange where
  start : Int
  stop : Int
deriving DecidableEq, Repr

/-- `WEEKS_PER_YEAR = 52` (src/types/index.ts). -/
def WEEKS_PER_YEAR : Int := 52

/-- `DEFAULT_LIFE_EXPECTANCY = 80` (src/types/index.ts). -/
def DEFAULT_LIFE_EXPECTANCY : Int := 80

/-- `getWeekRange(birthDate, weekIndex)`:
`start = addWeeks(startOfDay(birthDate), weekIndex)`, `end = addWeeks(start, 1)`.
`addWeeks` adds `7·n` days; at day granularity `startOfDay` is the identity. -/
def getWeekRange (birthDate : Int) (weekIndex : Int) : DateRange :=
  let start := birthDate + 7 * weekIndex
  { start := start, stop := start + 7 }

/-- `getWeekIndex(birthDate, date) = differenceInWeeks(startOfDay(date), startOfDay(birthDate))`.
date-fns `differenceInWeeks` divides the day difference by 7 and truncates
toward zero, i.e. `Int.tdiv`. -/
def getWeekIndex (birthDate : Int) (date : Int) : Int :=
  Int.tdiv (date - birthDate) 7

/-- The `{year, weekOfYear}` result of `weekIndexToPosition`. -/
structure WeekPosition where
  year : Int
  weekOfYear : Int
deriving DecidableEq, Repr

/-- `weekIndexToPosition(weekIndex) = { year: Math.floor(weekIndex / 52),
weekOfYear: weekIndex % 52 }`.  JS `Math.floor` on a quotient is `Int.fdiv`;
the JS `%` operator truncates (remainder has the dividend's sign), `Int.tmod`. -/
def weekIndexToPosition (weekIndex : Int) : WeekPosition :=
  { year := Int.fdiv weekIndex WEEKS_PER_YEAR
    weekOfYear := Int.tmod weekIndex WEEKS_PER_YEAR }

/-- `isWeekPast(weekEnd) = isBefore(weekEnd, startOfDay(now))`, with the
clock passed explicitly (`today`). -/
def isWeekPast (today : Int) (weekEnd : Int) : Bool :=
  weekEnd < today

/-- `isCurrentWeek(weekStart, weekEnd)`: `isWithinInterval(today, {start, end})
|| isSameDay(today, weekStart) || isSameDay(today, weekEnd)`, with the clock
passed explicitly.  `isWithinInterval` is inclusive on both ends. -/
def isCurrentWeek (today : Int) (weekStart : Int) (weekEnd : Int) : Bool :=
  (weekStart ≤ today ∧ today ≤ weekEnd) ∨ today = weekStart ∨ today = weekEnd

/-- `isEraActiveInWeek(eraStart, eraEnd, weekStart, weekEnd)`: two early
`false` returns — `isAfter(eraStart, weekEnd)` and
(`eraEnd && isBefore(eraEnd, weekStart)`) — otherwise `true`. -/
def isEraActiveInWeek (eraStart : Int) (eraEnd : Option Int)
    (weekStart : Int) (weekEnd : Int) : Bool :=
  if eraStart > weekEnd then
    false
  else
    match eraEnd with
    | some e => if e < weekStart then false else true
    | none => true

/-! ## Data model (src/types/index.ts) -/

inductive EraCategory where
  | work | education | location | relationship | health | other
deriving DecidableEq, Repr

/-- `LifeEra` (src/types/index.ts). -/
structure LifeEra where
  id : String
  title : String
  startDate : Int
  endDate : Option Int := none
  color : String
  category : EraCategory
deriving DecidableEq, Repr

/-- `LifeEvent` (src/types/index.ts). -/
structure LifeEvent where
  id : String
  date : Int
  endDate : Option Int := none
  title : String
  description : Option String := none
  color : Option String := none
deriving DecidableEq, Repr

/-- One value of the store's `weekMap`: `{ eraIds: string[]; eventIds: string[] }`. -/
structure WeekEntry where
  eraIds : List String
  eventIds : List String
deriving DecidableEq, Repr

/-- The JS `Map<number, WeekEntry>`, modelled as a partial function;
an absent key is `none`. -/
def WeekMap : Type := Int → Option WeekEntry

/-- `new Map()` — the empty map. -/
def WeekMap.empty : WeekMap := fun _ => none

/-- `map.set(k, v)` as a pointwise functional update. -/
def WeekMap.set (m : WeekMap) (k : Int) (v : WeekEntry) : WeekMap :=
  fun i => if i = k then some v else m i

/-- `map.get(k) ?? { eraIds: [], eventIds: [] }` — the entry observed at a
key, with the default used by `_recomputeWeekMap`. -/
def WeekMap.entryAt (m : WeekMap) (k : Int) : WeekEntry :=
  (m k).getD { eraIds := [], eventIds := [] }

/-- The `eraIds` list observed at a week (empty when the entry is absent). -/
def WeekMap.eraIdsAt (m : WeekMap) (k : Int) : List String :=
  (m.entryAt k).eraIds

/-- The `eventIds` list observed at a week (empty when the entry is absent). -/
def WeekMap.eventIdsAt (m : WeekMap) (k : Int) : List String :=
  (m.entryAt k).eventIds

/-- `WeekData` (src/types/index.ts), as synthesized by `getWeekData`. -/
structure WeekData where
  index : Int
  year : Int
  weekOfYear : Int
  startDate : Int
  endDate : Int
  isPast : Bool
  isCurrentWeek : Bool
  activeEras : List String
  events : List String
deriving DecidableEq, Repr

/-! ## Life Calendar State (src/store/lifeCalendarStore.ts) -/

/-- The persisted slice of the store state.  UI fields
(`hoveredWeekIndex`, `selectedWeekIndex`) carry no core behaviour and are
omitted. -/
structure LifeCalendarState where
  birthDate : Option Int
  lifeExpectancy : Int
  eras : List LifeEra
  events : List LifeEvent
  weekMap : WeekMap

theorem LifeCalendarState.ext' {s t : LifeCalendarState}
    (h1 : s.birthDate = t.birthDate) (h2 : s.lifeExpectancy = t.lifeExpectancy)
    (h3 : s.eras = t.eras) (h4 : s.events = t.events)
    (h5 : s.weekMap = t.weekMap) : s = t := by
  cases s; cases t; simp_all

/-- The store's initial state: `birthDate: null, lifeExpectancy: 80,
eras: [], events: [], weekMap: new Map()`. -/
def initialState : LifeCalendarState :=
  { birthDate := none
    lifeExpectancy := DEFAULT_LIFE_EXPECTANCY
    eras := []
    events := []
    weekMap := WeekMap.empty }

/-- The list of week indices `[a, a+1, …, a+n-1]` visited by a JS
`for` loop counting up from `a` for `n` iterations. -/
def intRange (a : Int) (n : Nat) : List Int :=
  (List.range n).map (fun k : Nat => a + (k : Int))

/-- Body of the inner era loop of `_recomputeWeekMap`: at one `weekIndex`,
compute `getWeekRange`, test `isEraActiveInWeek`, and if active push the
era id onto the (possibly fresh) entry and store it back. -/
def eraWeekStep (birthDate : Int) (era : LifeEra) (m : WeekMap) (weekIndex : Int) : WeekMap :=
  let r := getWeekRange birthDate weekIndex
  if isEraActiveInWeek era.startDate era.endDate r.start r.stop then
    let existing := m.entryAt weekIndex
    m.set weekIndex { existing with eraIds := existing.eraIds ++ [era.id] }
  else
    m

/-- The per-era pass of `_recomputeWeekMap`: scan all week indices in
`[0, totalWeeks)`. -/
def processEra (birthDate : Int) (totalWeeks : Int) (m : WeekMap) (era : LifeEra) : WeekMap :=
  (intRange 0 totalWeeks.toNat).foldl (eraWeekStep birthDate era) m

/-- Body of the period-event loop of `_recomputeWeekMap`: push the event id
onto the entry unless it is already present (`includes` check), and store
the entry back. -/
def periodWeekStep (id : String) (m : WeekMap) (weekIndex : Int) : WeekMap :=
  let existing := m.entryAt weekIndex
  if id ∈ existing.eventIds then
    m.set weekIndex existing
  else
    m.set weekIndex { existing with eventIds := existing.eventIds ++ [id] }

/-- The per-event pass of `_recomputeWeekMap`.  A period event (with
`endDate`) loops `weekIndex` from `max(0, getWeekIndex(birth, date))` to
`min(totalWeeks-1, getWeekIndex(birth, endDate))` inclusive; a point event
writes the single clamped-checked week. -/
def processEvent (birthDate : Int) (totalWeeks : Int) (m : WeekMap) (ev : LifeEvent) : WeekMap :=
  match ev.endDate with
  | some ed =>
      let startIndex := max 0 (getWeekIndex birthDate ev.date)
      let endIndex := min (totalWeeks - 1) (getWeekIndex birthDate ed)
      (intRange startIndex (endIndex + 1 - startIndex).toNat).foldl (periodWeekStep ev.id) m
  | none =>
      let weekIndex := getWeekIndex birthDate ev.date
      if 0 ≤ weekIndex ∧ weekIndex < totalWeeks then
        let existing := m.entryAt weekIndex
        m.set weekIndex { existing with eventIds := existing.eventIds ++ [ev.id] }
      else
        m

/-- `_recomputeWeekMap`: with no birth date the map is reset to empty;
otherwise process every era over the full `[0, totalWeeks)` range, then
every event. -/
def _recomputeWeekMap (s : LifeCalendarState) : WeekMap :=
  match s.birthDate with
  | none => WeekMap.empty
  | some birthDate =>
      let totalWeeks := s.lifeExpectancy * WEEKS_PER_YEAR
      let afterEras := s.eras.foldl (processEra birthDate totalWeeks) WeekMap.empty
      s.events.foldl (processEvent birthDate totalWeeks) afterEras

/-- `setBirthDate(date)`: replace the field, then recompute. -/
def setBirthDate (s : LifeCalendarState) (date : Int) : LifeCalendarState :=
  let s' := { s with birthDate := some date }
  { s' with weekMap := _recomputeWeekMap s' }

/-- `setLifeExpectancy(years)`: replace the field (the source stores the
argument as given), then recompute. -/
def setLifeExpectancy (s : LifeCalendarState) (years : Int) : LifeCalendarState :=
  let s' := { s with lifeExpectancy := years }
  { s' with weekMap := _recomputeWeekMap s' }

/-- `addEra(era)`: append, then recompute. -/
def addEra (s : LifeCalendarState) (era : LifeEra) : LifeCalendarState :=
  let s' := { s with eras := s.eras ++ [era] }
  { s' with weekMap := _recomputeWeekMap s' }

/-- `Partial<LifeEra>` — the `updates` argument of `updateEra`.  A `some`
field overrides the era's field by object spread; `endDate := some none`
models an explicit `endDate: undefined`. -/
structure EraUpdates where
  id : Option String := none
  title : Option String := none
  startDate : Option Int := none
  endDate : Option (Option Int) := none
  color : Option String := none
  category : Option EraCategory := none

/-- `{ ...era, ...updates }`. -/
def applyEraUpdates (era : LifeEra) (u : EraUpdates) : LifeEra :=
  { id := u.id.getD era.id
    title := u.title.getD era.title
    startDate := u.startDate.getD era.startDate
    endDate := u.endDate.getD era.endDate
    color := u.color.getD era.color
    category := u.category.getD era.category }

/-- `updateEra(id, updates)`: map over the eras, spreading the updates onto
the era whose id matches, then recompute. -/
def updateEra (s : LifeCalendarState) (id : String) (u : EraUpdates) : LifeCalendarState :=
  let s' := { s with eras := s.eras.map (fun era : LifeEra => if era.id = id then applyEraUpdates era u else era) }
  { s' with weekMap := _recomputeWeekMap s' }

/-- `removeEra(id)`: keep the eras whose id differs, then recompute. -/
def removeEra (s : LifeCalendarState) (id : String) : LifeCalendarState :=
  let s' := { s with eras := s.eras.filter (fun era : LifeEra => era.id ≠ id) }
  { s' with weekMap := _recomputeWeekMap s' }

/-- `addEvent(event)`: append, then recompute. -/
def addEvent (s : LifeCalendarState) (ev : LifeEvent) : LifeCalendarState :=
  let s' := { s with events := s.events ++ [ev] }
  { s' with weekMap := _recomputeWeekMap s' }

/-- `Partial<LifeEvent>` — the `updates` argument of `updateEvent`. -/
structure EventUpdates where
  id : Option String := none
  date : Option Int := none
  endDate : Option (Option Int) := none
  title : Option String := none
  description : Option (Option String) := none
  color : Option (Option String) := none

/-- `{ ...event, ...updates }`. -/
def applyEventUpdates (ev : LifeEvent) (u : EventUpdates) : LifeEvent :=
  { id := u.id.getD ev.id
    date := u.date.getD ev.date
    endDate := u.endDate.getD ev.endDate
    title := u.title.getD ev.title
    description := u.description.getD ev.description
    color := u.color.getD ev.color }

/-- `updateEvent(id, updates)`. -/
def updateEvent (s : LifeCalendarState) (id : String) (u : EventUpdates) : LifeCalendarState :=
  let s' := { s with events := s.events.map (fun ev : LifeEvent => if ev.id = id then applyEventUpdates ev u else ev) }
  { s' with weekMap := _recomputeWeekMap s' }

/-- `removeEvent(id)`. -/
def removeEvent (s : LifeCalendarState) (id : String) : LifeCalendarState :=
  let s' := { s with events := s.events.filter (fun ev : LifeEvent => ev.id ≠ id) }
  { s' with weekMap := _recomputeWeekMap s' }

/-- `getTotalWeeks() = lifeExpectancy * WEEKS_PER_YEAR`. -/
def getTotalWeeks (s : LifeCalendarState) : Int :=
  s.lifeExpectancy * WEEKS_PER_YEAR

/-- `getWeekData(weekIndex)`, with the clock's `startOfDay(new Date())`
passed explicitly as `today`.  Returns `none` (JS `null`) when no birth
date is set or the index is out of `[0, totalWeeks)`; otherwise
synthesizes a `WeekData` from the temporal calculus and the current
`weekMap` entry (empty lists when absent).  The function is total: no
execution path can throw. -/
def getWeekData (today : Int) (s : LifeCalendarState) (weekIndex : Int) : Option WeekData :=
  match s.birthDate with
  | none => none
  | some birthDate =>
      let totalWeeks := s.lifeExpectancy * WEEKS_PER_YEAR
      if weekIndex < 0 ∨ totalWeeks ≤ weekIndex then
        none
      else
        let pos := weekIndexToPosition weekIndex
        let r := getWeekRange birthDate weekIndex
        let weekData := s.weekMap weekIndex
        some
          { index := weekIndex
            year := pos.year
            weekOfYear := pos.weekOfYear
            startDate := r.start
            endDate := r.stop
            isPast := isWeekPast today r.stop
            isCurrentWeek := isCurrentWeek today r.start r.stop
            activeEras := (weekData.map WeekEntry.eraIds).getD []
            events := (weekData.map WeekEntry.eventIds).getD [] }

/-! ## Machinery: loop ranges and locality of map updates -/

/-- Unfold `WeekMap.set` at a key. -/
theorem WeekMap.set_apply (m : WeekMap) (k : Int) (v : WeekEntry) (i : Int) :
    (m.set k v) i = if i = k then some v else m i := rfl

theorem WeekMap.set_apply_self (m : WeekMap) (k : Int) (v : WeekEntry) :
    (m.set k v) k = some v := by simp [WeekMap.set_apply]

theorem WeekMap.set_apply_ne (m : WeekMap) (k : Int) (v : WeekEntry) {i : Int}
    (h : i ≠ k) : (m.set k v) i = m i := by simp [WeekMap.set_apply, h]

theorem intRange_append (a : Int) (m n : Nat) :
    intRange a (m + n) = intRange a m ++ intRange (a + m) n := by
  unfold intRange
  rw [List.range_add, List.map_append, List.map_map]
  congr 1
  apply List.map_congr_left
  intro k _
  simp only [Function.comp_apply]
  push_cast
  ring

theorem intRange_succ_head (a : Int) (n : Nat) :
    intRange a (n + 1) = a :: intRange (a + 1) n := by
  unfold intRange
  rw [List.range_succ_eq_map, List.map_cons, List.map_map]
  congr 1
  · simp
  · apply List.map_congr_left
    intro k _
    simp only [Function.comp_apply]
    push_cast
    ring

theorem mem_intRange {a v : Int} {n : Nat} :
    v ∈ intRange a n ↔ a ≤ v ∧ v < a + n := by
  unfold intRange
  simp only [List.mem_map, List.mem_range]
  constructor
  · rintro ⟨k, hk, rfl⟩
    omega
  · rintro ⟨h1, h2⟩
    exact ⟨(v - a).toNat, by omega, by omega⟩

theorem intRange_split {a v : Int} {n : Nat} (h1 : a ≤ v) (h2 : v < a + n) :
    intRange a n =
      intRange a (v - a).toNat ++ v :: intRange (v + 1) (n - (v - a).toNat - 1) := by
  have hn : intRange a n = intRange a ((v - a).toNat + ((n - (v - a).toNat - 1) + 1)) := by
    congr 1
    omega
  rw [hn, intRange_append, intRange_succ_head]
  have hv : a + ((v - a).toNat : Int) = v := by omega
  rw [hv]

theorem not_mem_intRange_left {a v : Int} (h : a ≤ v) :
    v ∉ intRange a (v - a).toNat := by
  intro hmem
  rw [mem_intRange] at hmem
  omega

theorem not_mem_intRange_right (v : Int) (n : Nat) :
    v ∉ intRange (v + 1) n := by
  intro hmem
  rw [mem_intRange] at hmem
  omega

/-! ## Machinery: the era pass -/

/-- The era-activity test of the inner loop, at week `w` of `birthDate`'s grid. -/
def eraActiveAt (birthDate : Int) (era : LifeEra) (w : Int) : Bool :=
  let r := getWeekRange birthDate w
  isEraActiveInWeek era.startDate era.endDate r.start r.stop

theorem eraWeekStep_apply_ne (b : Int) (era : LifeEra) (m : WeekMap) (w : Int)
    {v : Int} (h : v ≠ w) : (eraWeekStep b era m w) v = m v := by
  unfold eraWeekStep
  split
  · exact WeekMap.set_apply_ne _ _ _ h
  · rfl

theorem eraWeekStep_apply_self (b : Int) (era : LifeEra) (m : WeekMap) (w : Int) :
    (eraWeekStep b era m w) w =
      if eraActiveAt b era w then
        some { eraIds := (m.entryAt w).eraIds ++ [era.id], eventIds := (m.entryAt w).eventIds }
      else m w := by
  unfold eraWeekStep eraActiveAt
  split
  · next h => simp [h, WeekMap.set_apply_self]
  · next h => simp [h]

theorem foldl_eraWeekStep_not_mem (b : Int) (era : LifeEra) {l : List Int}
    {v : Int} (h : v ∉ l) (m : WeekMap) :
    (l.foldl (eraWeekStep b era) m) v = m v := by
  induction l generalizing m with
  | nil => rfl
  | cons w l ih =>
      have hv : v ≠ w := by intro hh; exact h (hh ▸ List.mem_cons_self w l)
      have hl : v ∉ l := fun hh => h (List.mem_cons_of_mem w hh)
      rw [List.foldl_cons, ih hl, eraWeekStep_apply_ne b era m w hv]

theorem processEra_apply_in (b tw : Int) (m : WeekMap) (era : LifeEra) {v : Int}
    (h0 : 0 ≤ v) (h1 : v < tw) :
    (processEra b tw m era) v =
      if eraActiveAt b era v then
        some { eraIds := (m.entryAt v).eraIds ++ [era.id], eventIds := (m.entryAt v).eventIds }
      else m v := by
  unfold processEra
  have hv : v < 0 + (tw.toNat : Int) := by omega
  rw [intRange_split h0 hv, List.foldl_append, List.foldl_cons]
  have e1 : ((intRange 0 (v - 0).toNat).foldl (eraWeekStep b era) m) v = m v :=
    foldl_eraWeekStep_not_mem b era (by simpa using not_mem_intRange_left h0) m
  rw [foldl_eraWeekStep_not_mem b era (not_mem_intRange_right v _) _,
    eraWeekStep_apply_self]
  unfold WeekMap.entryAt
  rw [e1]

theorem processEra_apply_out (b tw : Int) (m : WeekMap) (era : LifeEra) {v : Int}
    (h : v < 0 ∨ tw ≤ v) : (processEra b tw m era) v = m v := by
  unfold processEra
  apply foldl_eraWeekStep_not_mem
  intro hmem
  rw [mem_intRange] at hmem
  omega

theorem processEra_eraIdsAt (b tw : Int) (m : WeekMap) (era : LifeEra) (v : Int) :
    (processEra b tw m era).eraIdsAt v =
      if 0 ≤ v ∧ v < tw ∧ eraActiveAt b era v then m.eraIdsAt v ++ [era.id]
      else m.eraIdsAt v := by
  by_cases hin : 0 ≤ v ∧ v < tw
  · unfold WeekMap.eraIdsAt WeekMap.entryAt
    rw [processEra_apply_in b tw m era hin.1 hin.2]
    by_cases ha : eraActiveAt b era v = true
    · simp [ha, hin.1, hin.2, WeekMap.entryAt]
    · simp [ha, hin.1, hin.2]
  · unfold WeekMap.eraIdsAt WeekMap.entryAt
    rw [processEra_apply_out b tw m era (by omega)]
    have : ¬(0 ≤ v ∧ v < tw ∧ eraActiveAt b era v) := fun h => hin ⟨h.1, h.2.1⟩
    simp [this]

theorem processEra_eventIdsAt (b tw : Int) (m : WeekMap) (era : LifeEra) (v : Int) :
    (processEra b tw m era).eventIdsAt v = m.eventIdsAt v := by
  by_cases hin : 0 ≤ v ∧ v < tw
  · unfold WeekMap.eventIdsAt WeekMap.entryAt
    rw [processEra_apply_in b tw m era hin.1 hin.2]
    by_cases ha : eraActiveAt b era v = true <;> simp [ha, WeekMap.entryAt]
  · unfold WeekMap.eventIdsAt WeekMap.entryAt
    rw [processEra_apply_out b tw m era (by omega)]

theorem erasFold_eraIdsAt (b tw : Int) (eras : List LifeEra) (m : WeekMap) (v : Int)
    (h0 : 0 ≤ v) (h1 : v < tw) :
    ((eras.foldl (processEra b tw) m)).eraIdsAt v =
      m.eraIdsAt v ++ (eras.filter (fun e => eraActiveAt b e v)).map LifeEra.id := by
  induction eras generalizing m with
  | nil => simp
  | cons e es ih =>
      rw [List.foldl_cons, ih, processEra_eraIdsAt]
      by_cases ha : eraActiveAt b e v = true
      · simp [ha, h0, h1, List.filter_cons]
      · simp [ha, h0, h1, List.filter_cons]

theorem erasFold_apply_out (b tw : Int) (eras : List LifeEra) (m : WeekMap) (v : Int)
    (h : v < 0 ∨ tw ≤ v) :
    (eras.foldl (processEra b tw) m) v = m v := by
  induction eras generalizing m with
  | nil => rfl
  | cons e es ih => rw [List.foldl_cons, ih, processEra_apply_out b tw m e h]

theorem erasFold_eventIdsAt (b tw : Int) (eras : List LifeEra) (m : WeekMap) (v : Int) :
    ((eras.foldl (processEra b tw) m)).eventIdsAt v = m.eventIdsAt v := by
  induction eras generalizing m with
  | nil => rfl
  | cons e es ih => rw [List.foldl_cons, ih, processEra_eventIdsAt]

/-! ## Machinery: the event pass -/

/-- Whether the event pass writes event `ev` into week `v`: a period event
covers the clamped inclusive index range; a point event covers its single
in-range week. -/
def eventCoversWeek (birthDate totalWeeks : Int) (ev : LifeEvent) (v : Int) : Bool :=
  match ev.endDate with
  | some ed =>
      max 0 (getWeekIndex birthDate ev.date) ≤ v ∧
        v ≤ min (totalWeeks - 1) (getWeekIndex birthDate ed)
  | none =>
      getWeekIndex birthDate ev.date = v ∧ 0 ≤ v ∧ v < totalWeeks

theorem periodWeekStep_apply_ne (id : String) (m : WeekMap) (w : Int) {v : Int}
    (h : v ≠ w) : (periodWeekStep id m w) v = m v := by
  unfold periodWeekStep
  split
  · exact WeekMap.set_apply_ne _ _ _ h
  · exact WeekMap.set_apply_ne _ _ _ h

theorem foldl_periodWeekStep_not_mem (id : String) {l : List Int} {v : Int}
    (h : v ∉ l) (m : WeekMap) :
    (l.foldl (periodWeekStep id) m) v = m v := by
  induction l generalizing m with
  | nil => rfl
  | cons w l ih =>
      have hv : v ≠ w := by intro hh; exact h (hh ▸ List.mem_cons_self w l)
      have hl : v ∉ l := fun hh => h (List.mem_cons_of_mem w hh)
      rw [List.foldl_cons, ih hl, periodWeekStep_apply_ne id m w hv]

theorem periodWeekStep_apply_self (id : String) (m : WeekMap) (w : Int) :
    (periodWeekStep id m w) w =
      if id ∈ (m.entryAt w).eventIds then some (m.entryAt w)
      else some { eraIds := (m.entryAt w).eraIds, eventIds := (m.entryAt w).eventIds ++ [id] } := by
  unfold periodWeekStep
  split
  · next h => simp [h, WeekMap.set_apply_self]
  · next h => simp [h, WeekMap.set_apply_self]

theorem eventCoversWeek_period_iff (b tw : Int) (ev : LifeEvent) (ed : Int)
    (hed : ev.endDate = some ed) (v : Int) :
    eventCoversWeek b tw ev v = true ↔
      max 0 (getWeekIndex b ev.date) ≤ v ∧ v ≤ min (tw - 1) (getWeekIndex b ed) := by
  unfold eventCoversWeek
  rw [hed]
  simp

theorem processEvent_apply_period_in (b tw : Int) (m : WeekMap) (ev : LifeEvent)
    (ed : Int) (hed : ev.endDate = some ed) (v : Int)
    (hin : max 0 (getWeekIndex b ev.date) ≤ v ∧ v ≤ min (tw - 1) (getWeekIndex b ed)) :
    (processEvent b tw m ev) v =
      if ev.id ∈ (m.entryAt v).eventIds then some (m.entryAt v)
      else some { eraIds := (m.entryAt v).eraIds, eventIds := (m.entryAt v).eventIds ++ [ev.id] } := by
  unfold processEvent
  rw [hed]
  simp only
  set sI := max 0 (getWeekIndex b ev.date) with hsI
  set eI := min (tw - 1) (getWeekIndex b ed) with heI
  have hmem : v < sI + ((eI + 1 - sI).toNat : Int) := by omega
  rw [intRange_split hin.1 hmem, List.foldl_append, List.foldl_cons]
  have e1 : ((intRange sI (v - sI).toNat).foldl (periodWeekStep ev.id) m) v = m v :=
    foldl_periodWeekStep_not_mem ev.id (by simpa using not_mem_intRange_left hin.1) m
  have e2 : ((intRange sI (v - sI).toNat).foldl (periodWeekStep ev.id) m).entryAt v
      = m.entryAt v := by
    unfold WeekMap.entryAt
    rw [e1]
  rw [foldl_periodWeekStep_not_mem ev.id (not_mem_intRange_right v _) _,
    periodWeekStep_apply_self, e2]

theorem processEvent_apply_period_out (b tw : Int) (m : WeekMap) (ev : LifeEvent)
    (ed : Int) (hed : ev.endDate = some ed) (v : Int)
    (hout : ¬(max 0 (getWeekIndex b ev.date) ≤ v ∧ v ≤ min (tw - 1) (getWeekIndex b ed))) :
    (processEvent b tw m ev) v = m v := by
  unfold processEvent
  rw [hed]
  simp only
  apply foldl_periodWeekStep_not_mem
  intro hmem
  rw [mem_intRange] at hmem
  omega

theorem processEvent_eventIdsAt_period (b tw : Int) (m : WeekMap) (ev : LifeEvent)
    (ed : Int) (hed : ev.endDate = some ed) (v : Int) :
    (processEvent b tw m ev).eventIdsAt v =
      if eventCoversWeek b tw ev v then
        (if ev.id ∈ m.eventIdsAt v then m.eventIdsAt v else m.eventIdsAt v ++ [ev.id])
      else m.eventIdsAt v := by
  by_cases hin : max 0 (getWeekIndex b ev.date) ≤ v ∧ v ≤ min (tw - 1) (getWeekIndex b ed)
  · rw [if_pos ((eventCoversWeek_period_iff b tw ev ed hed v).mpr hin)]
    have happ := processEvent_apply_period_in b tw m ev ed hed v hin
    unfold WeekMap.eventIdsAt WeekMap.entryAt
    rw [happ]
    by_cases hmem2 : ev.id ∈ (m.entryAt v).eventIds
    · simp [WeekMap.entryAt, hmem2]
      simp only [WeekMap.entryAt] at hmem2
      simp [hmem2]
    · simp [WeekMap.entryAt, hmem2]
      simp only [WeekMap.entryAt] at hmem2
      simp [hmem2]
  · rw [if_neg]
    · have happ := processEvent_apply_period_out b tw m ev ed hed v hin
      unfold WeekMap.eventIdsAt WeekMap.entryAt
      rw [happ]
    · intro hc
      exact hin ((eventCoversWeek_period_iff b tw ev ed hed v).mp hc)

theorem processEvent_eventIdsAt_point (b tw : Int) (m : WeekMap) (ev : LifeEvent)
    (hed : ev.endDate = none) (v : Int) :
    (processEvent b tw m ev).eventIdsAt v =
      if eventCoversWeek b tw ev v then m.eventIdsAt v ++ [ev.id]
      else m.eventIdsAt v := by
  unfold processEvent eventCoversWeek
  rw [hed]
  simp only
  by_cases hrange : 0 ≤ getWeekIndex b ev.date ∧ getWeekIndex b ev.date < tw
  · by_cases hv : getWeekIndex b ev.date = v
    · subst hv
      unfold WeekMap.eventIdsAt WeekMap.entryAt
      simp [hrange, WeekMap.set_apply_self, hrange.1, hrange.2]
    · unfold WeekMap.eventIdsAt WeekMap.entryAt
      have hne : v ≠ getWeekIndex b ev.date := fun hh => hv hh.symm
      simp only [hrange, and_self, if_true]
      rw [WeekMap.set_apply_ne _ _ _ hne]
      have : (decide (getWeekIndex b ev.date = v ∧ 0 ≤ v ∧ v < tw)) = false := by
        simp only [decide_eq_false_iff_not]
        intro h
        exact hv h.1
      simp [this]
  · unfold WeekMap.eventIdsAt WeekMap.entryAt
    have : (decide (getWeekIndex b ev.date = v ∧ 0 ≤ v ∧ v < tw)) = false := by
      simp only [decide_eq_false_iff_not]
      rintro ⟨rfl, h2, h3⟩
      exact hrange ⟨h2, h3⟩
    simp only [hrange, if_false]
    simp [this]

theorem eventCoversWeek_point_iff (b tw : Int) (ev : LifeEvent)
    (hed : ev.endDate = none) (v : Int) :
    eventCoversWeek b tw ev v = true ↔
      getWeekIndex b ev.date = v ∧ 0 ≤ v ∧ v < tw := by
  unfold eventCoversWeek
  rw [hed]
  simp

theorem processEvent_apply_point (b tw : Int) (m : WeekMap) (ev : LifeEvent)
    (hed : ev.endDate = none) (v : Int) :
    (processEvent b tw m ev) v =
      if getWeekIndex b ev.date = v ∧ 0 ≤ v ∧ v < tw then
        some { eraIds := (m.entryAt v).eraIds, eventIds := (m.entryAt v).eventIds ++ [ev.id] }
      else m v := by
  unfold processEvent
  rw [hed]
  simp only
  by_cases hrange : 0 ≤ getWeekIndex b ev.date ∧ getWeekIndex b ev.date < tw
  · by_cases hv : getWeekIndex b ev.date = v
    · subst hv
      simp [hrange, WeekMap.set_apply_self, hrange.1, hrange.2]
    · have hne : v ≠ getWeekIndex b ev.date := fun hh => hv hh.symm
      have hc : ¬(getWeekIndex b ev.date = v ∧ 0 ≤ v ∧ v < tw) := fun h => hv h.1
      simp only [hrange, and_self, if_true, hc, if_false]
      exact WeekMap.set_apply_ne _ _ _ hne
  · have hc : ¬(getWeekIndex b ev.date = v ∧ 0 ≤ v ∧ v < tw) := by
      rintro ⟨rfl, h2, h3⟩
      exact hrange ⟨h2, h3⟩
    simp [hrange, hc]

theorem processEvent_eraIdsAt (b tw : Int) (m : WeekMap) (ev : LifeEvent) (v : Int) :
    (processEvent b tw m ev).eraIdsAt v = m.eraIdsAt v := by
  cases hed : ev.endDate with
  | none =>
      unfold WeekMap.eraIdsAt WeekMap.entryAt
      rw [processEvent_apply_point b tw m ev hed v]
      split
      · simp [WeekMap.entryAt]
      · rfl
  | some ed =>
      by_cases hin : max 0 (getWeekIndex b ev.date) ≤ v ∧ v ≤ min (tw - 1) (getWeekIndex b ed)
      · unfold WeekMap.eraIdsAt WeekMap.entryAt
        rw [processEvent_apply_period_in b tw m ev ed hed v hin]
        split
        · simp [WeekMap.entryAt]
        · simp [WeekMap.entryAt]
      · unfold WeekMap.eraIdsAt WeekMap.entryAt
        rw [processEvent_apply_period_out b tw m ev ed hed v hin]

theorem eventsFold_eraIdsAt (b tw : Int) (evs : List LifeEvent) (m : WeekMap) (v : Int) :
    ((evs.foldl (processEvent b tw) m)).eraIdsAt v = m.eraIdsAt v := by
  induction evs generalizing m with
  | nil => rfl
  | cons e es ih => rw [List.foldl_cons, ih, processEvent_eraIdsAt]

theorem processEvent_eventIdsAt_count_self (b tw : Int) (m : WeekMap) (ev : LifeEvent)
    (v : Int) (h : ev.id ∉ m.eventIdsAt v) :
    ((processEvent b tw m ev).eventIdsAt v).count ev.id =
      if eventCoversWeek b tw ev v then 1 else 0 := by
  have hz : (m.eventIdsAt v).count ev.id = 0 := List.count_eq_zero.mpr h
  cases hed : ev.endDate with
  | none =>
      rw [processEvent_eventIdsAt_point b tw m ev hed v]
      by_cases hc : eventCoversWeek b tw ev v = true
      · rw [if_pos hc]
        simp [List.count_append, hz, hc]
      · rw [if_neg hc]
        simp [hz, hc]
  | some ed =>
      rw [processEvent_eventIdsAt_period b tw m ev ed hed v]
      by_cases hc : eventCoversWeek b tw ev v = true
      · rw [if_pos hc, if_neg h]
        simp [List.count_append, hz, hc]
      · rw [if_neg hc]
        simp [hz, hc]

theorem processEvent_eventIdsAt_count_other (b tw : Int) (m : WeekMap) (ev : LifeEvent)
    (v : Int) (i : String) (h : i ≠ ev.id) :
    ((processEvent b tw m ev).eventIdsAt v).count i = (m.eventIdsAt v).count i := by
  cases hed : ev.endDate with
  | none =>
      rw [processEvent_eventIdsAt_point b tw m ev hed v]
      split
      · simp [List.count_append, List.count_singleton, h]
      · rfl
  | some ed =>
      rw [processEvent_eventIdsAt_period b tw m ev ed hed v]
      split
      · split
        · rfl
        · simp [List.count_append, List.count_singleton, h]
      · rfl

theorem processEvent_eventIdsAt_mem_superset (b tw : Int) (m : WeekMap) (ev : LifeEvent)
    (v : Int) (i : String) (h : i ∈ (processEvent b tw m ev).eventIdsAt v) :
    i ∈ m.eventIdsAt v ∨ i = ev.id := by
  cases hed : ev.endDate with
  | none =>
      rw [processEvent_eventIdsAt_point b tw m ev hed v] at h
      revert h
      split
      · intro h
        rcases List.mem_append.mp h with h' | h'
        · exact Or.inl h'
        · exact Or.inr (List.mem_singleton.mp h')
      · exact Or.inl
  | some ed =>
      rw [processEvent_eventIdsAt_period b tw m ev ed hed v] at h
      revert h
      split
      · split
        · exact Or.inl
        · intro h
          rcases List.mem_append.mp h with h' | h'
          · exact Or.inl h'
          · exact Or.inr (List.mem_singleton.mp h')
      · exact Or.inl

theorem eventsFold_count_notin (b tw : Int) (evs : List LifeEvent) (m : WeekMap)
    (v : Int) (i : String) (h : ∀ ev ∈ evs, ev.id ≠ i) :
    ((evs.foldl (processEvent b tw) m).eventIdsAt v).count i = (m.eventIdsAt v).count i := by
  induction evs generalizing m with
  | nil => rfl
  | cons e es ih =>
      rw [List.foldl_cons,
        ih _ (fun ev hev => h ev (List.mem_cons_of_mem e hev)),
        processEvent_eventIdsAt_count_other b tw m e v i
          (fun hh => h e (List.mem_cons_self e es) hh.symm)]

/-- Main characterization of the event pass: starting from a map whose
observed event-id lists are disjoint from the ids of the events to be
processed, and with pairwise-distinct event ids, each processed event's id
ends up in a week's `eventIds` exactly once if the event covers the week,
and not at all otherwise. -/
theorem eventsFold_count (b tw : Int) (evs : List LifeEvent) (m : WeekMap)
    (hnd : (evs.map LifeEvent.id).Nodup)
    (hdisj : ∀ v i, i ∈ m.eventIdsAt v → ¬ i ∈ evs.map LifeEvent.id) :
    ∀ ev ∈ evs, ∀ v : Int,
      ((evs.foldl (processEvent b tw) m).eventIdsAt v).count ev.id =
        if eventCoversWeek b tw ev v then 1 else 0 := by
  induction evs generalizing m with
  | nil =>
      intro ev hev
      exact absurd hev (List.not_mem_nil ev)
  | cons e es ih =>
      intro ev hev v
      rw [List.map_cons, List.nodup_cons] at hnd
      rcases List.mem_cons.mp hev with rfl | hev'
      · rw [List.foldl_cons,
          eventsFold_count_notin b tw es (processEvent b tw m ev) v ev.id
            (fun ev' hev' hh => hnd.1 (hh ▸ List.mem_map_of_mem LifeEvent.id hev'))]
        apply processEvent_eventIdsAt_count_self
        intro hmem
        exact hdisj v ev.id hmem (List.mem_cons_self _ _)
      · rw [List.foldl_cons]
        apply ih (processEvent b tw m e) hnd.2 _ ev hev'
        intro w i hi
        rcases processEvent_eventIdsAt_mem_superset b tw m e w i hi with hold | rfl
        · intro hmem
          exact hdisj w i hold (List.mem_cons_of_mem _ hmem)
        · exact hnd.1

/-! ## Characterization of the rebuilt index -/

theorem recompute_eraIdsAt (s : LifeCalendarState) (b : Int)
    (hb : s.birthDate = some b) (v : Int) :
    (_recomputeWeekMap s).eraIdsAt v =
      if 0 ≤ v ∧ v < s.lifeExpectancy * WEEKS_PER_YEAR then
        (s.eras.filter (fun e => eraActiveAt b e v)).map LifeEra.id
      else [] := by
  unfold _recomputeWeekMap
  rw [hb]
  simp only
  rw [eventsFold_eraIdsAt]
  by_cases hin : 0 ≤ v ∧ v < s.lifeExpectancy * WEEKS_PER_YEAR
  · rw [if_pos hin, erasFold_eraIdsAt _ _ _ _ _ hin.1 hin.2]
    rfl
  · rw [if_neg hin]
    unfold WeekMap.eraIdsAt WeekMap.entryAt
    rw [erasFold_apply_out _ _ _ _ _ (by omega)]
    rfl

theorem recompute_eventIdsAt_count (s : LifeCalendarState) (b : Int)
    (hb : s.birthDate = some b) (hnd : (s.events.map LifeEvent.id).Nodup)
    (ev : LifeEvent) (hev : ev ∈ s.events) (v : Int) :
    ((_recomputeWeekMap s).eventIdsAt v).count ev.id =
      if eventCoversWeek b (s.lifeExpectancy * WEEKS_PER_YEAR) ev v then 1 else 0 := by
  unfold _recomputeWeekMap
  rw [hb]
  simp only
  apply eventsFold_count _ _ _ _ hnd _ ev hev
  intro w i hi
  have hnil : (s.eras.foldl (processEra b (s.lifeExpectancy * WEEKS_PER_YEAR))
      WeekMap.empty).eventIdsAt w = [] := by
    rw [erasFold_eventIdsAt]
    rfl
  rw [hnil] at hi
  exact absurd hi (List.not_mem_nil i)

theorem recompute_eventIdsAt_mem (s : LifeCalendarState) (b : Int)
    (hb : s.birthDate = some b) (hnd : (s.events.map LifeEvent.id).Nodup)
    (ev : LifeEvent) (hev : ev ∈ s.events) (v : Int) :
    (ev.id ∈ (_recomputeWeekMap s).eventIdsAt v ↔
      eventCoversWeek b (s.lifeExpectancy * WEEKS_PER_YEAR) ev v = true) := by
  have hc := recompute_eventIdsAt_count s b hb hnd ev hev v
  constructor
  · intro hmem
    by_contra hcov
    rw [if_neg hcov] at hc
    exact (List.count_eq_zero.mp hc) hmem
  · intro hcov
    rw [if_pos hcov] at hc
    have : 0 < ((_recomputeWeekMap s).eventIdsAt v).count ev.id := by omega
    exact List.count_pos_iff.mp this

/-- Membership form of the era characterization, under unique era ids. -/
theorem recompute_eraIdsAt_mem (s : LifeCalendarState) (b : Int)
    (hb : s.birthDate = some b) (hnd : (s.eras.map LifeEra.id).Nodup)
    (era : LifeEra) (hera : era ∈ s.eras) (v : Int)
    (h0 : 0 ≤ v) (h1 : v < s.lifeExpectancy * WEEKS_PER_YEAR) :
    (era.id ∈ (_recomputeWeekMap s).eraIdsAt v ↔ eraActiveAt b era v = true) := by
  rw [recompute_eraIdsAt s b hb v, if_pos ⟨h0, h1⟩]
  constructor
  · intro hmem
    rcases List.mem_map.mp hmem with ⟨era', hera', hid⟩
    rcases List.mem_filter.mp hera' with ⟨hera'', hact⟩
    have : era' = era := List.inj_on_of_nodup_map hnd hera'' hera hid
    exact this ▸ hact
  · intro hact
    exact List.mem_map_of_mem LifeEra.id (List.mem_filter.mpr ⟨hera, hact⟩)

/-- Out-of-grid weeks never hold an era id. -/
theorem recompute_eraIdsAt_out (s : LifeCalendarState) (b : Int)
    (hb : s.birthDate = some b) (v : Int)
    (h : ¬(0 ≤ v ∧ v < s.lifeExpectancy * WEEKS_PER_YEAR)) (i : String) :
    i ∉ (_recomputeWeekMap s).eraIdsAt v := by
  rw [recompute_eraIdsAt s b hb v, if_neg h]
  exact List.not_mem_nil i

/-! ## Arithmetic facts about the truncated week index -/

/-- A date one to six days before the (zeroed) birth date truncates to
week index 0. -/
theorem getWeekIndex_small_neg (b d : Int) (h1 : b - 6 ≤ d) (h2 : d < b) :
    getWeekIndex b d = 0 := by
  unfold getWeekIndex
  have hd : -6 ≤ d - b ∧ d - b ≤ -1 := by omega
  generalize hn : d - b = n
  rw [hn] at hd
  have h1' := hd.1
  have h2' := hd.2
  interval_cases n <;> decide

/-- A date seven or more days before the birth date gets a negative index. -/
theorem getWeekIndex_le_neg_seven (b d : Int) (h : d ≤ b - 7) :
    getWeekIndex b d < 0 := by
  unfold getWeekIndex
  have hd : d - b ≤ -7 := by omega
  generalize hn : d - b = n
  rw [hn] at hd
  cases n with
  | ofNat k =>
      rw [Int.ofNat_eq_coe] at hd
      omega
  | negSucc k =>
      show -(((k + 1) / 7 : Nat) : Int) < 0
      rw [Int.negSucc_eq] at hd
      have h7 : (7 : Nat) ≤ k + 1 := by omega
      have h1 : 1 ≤ (k + 1) / 7 := (Nat.one_le_div_iff (by omega)).mpr h7
      have h2 : (0 : Int) < (((k + 1) / 7 : Nat) : Int) := by exact_mod_cast h1
      omega

/-- A date at or beyond `b + 7·tw` (with `tw ≥ 0`) gets index `≥ tw`. -/
theorem getWeekIndex_ge (b d tw : Int) (h0 : 0 ≤ tw) (h : b + 7 * tw ≤ d) :
    tw ≤ getWeekIndex b d := by
  unfold getWeekIndex
  have hd : 7 * tw ≤ d - b := by omega
  generalize hn : d - b = n
  rw [hn] at hd
  cases n with
  | negSucc k =>
      have hneg := Int.negSucc_lt_zero k
      omega
  | ofNat k =>
      show tw ≤ ((k / 7 : Nat) : Int)
      rw [Int.ofNat_eq_coe] at hd
      have h7 : tw.toNat * 7 ≤ k := by omega
      have hq : tw.toNat ≤ k / 7 := (Nat.le_div_iff_mul_le (by omega)).mpr h7
      omega

/-! ## Civil calendar dates

Concrete calendar dates (used by the spec's scenarios and by the import
codec's ISO date strings) are converted to epoch day numbers with the
standard civil-calendar algorithm (Gregorian, proleptic); day 0 is
1970-01-01, matching a zeroed JS `Date`. -/

def isLeapYear (y : Int) : Bool :=
  Int.emod y 4 = 0 ∧ (Int.emod y 100 ≠ 0 ∨ Int.emod y 400 = 0)

def daysInMonth (y m : Int) : Int :=
  if m = 2 then (if isLeapYear y then 29 else 28)
  else if m = 4 ∨ m = 6 ∨ m = 9 ∨ m = 11 then 30
  else 31

/-- Days since 1970-01-01 of the civil date `y-m-d`. -/
def civilToDay (y m d : Int) : Int :=
  let y' := if m ≤ 2 then y - 1 else y
  let era := Int.fdiv y' 400
  let yoe := y' - era * 400
  let mp := Int.emod (m + 9) 12
  let doy := Int.ediv (153 * mp + 2) 5 + d - 1
  let doe := yoe * 365 + Int.ediv yoe 4 - Int.ediv yoe 100 + doy
  era * 146097 + doe - 719468

/-! ## The claims -/

theorem isEraActiveInWeek_eq_true_iff (eraStart ws we : Int) (eraEnd : Option Int) :
    isEraActiveInWeek eraStart eraEnd ws we = true ↔
      ¬(eraStart > we) ∧ ¬(∃ e, eraEnd = some e ∧ e < ws) := by
  unfold isEraActiveInWeek
  by_cases h1 : eraStart > we
  · simp [h1]
  · cases eraEnd with
    | none => simp [h1]
    | some e => by_cases h2 : e < ws <;> simp [h1, h2]

/-- C1: for an era with start `s` and optional end `e` in a state whose
era ids are unique, and any week index `w` in `[0, lifeExpectancy*52)`,
the rebuilt index's entry at `w` contains the era's id iff
`¬(s > weekEnd w)` and `¬(e` present `∧ e < weekStart w)`, where
`weekStart w = birth + 7w` and `weekEnd w = weekStart w + 7`
(the closed era and week intervals are non-disjoint; an absent end date
never triggers the second condition). -/
theorem C1_era_active_iff (s : LifeCalendarState) (b : Int)
    (hb : s.birthDate = some b) (hnd : (s.eras.map LifeEra.id).Nodup)
    (era : LifeEra) (hera : era ∈ s.eras) (w : Int)
    (h0 : 0 ≤ w) (h1 : w < s.lifeExpectancy * WEEKS_PER_YEAR) :
    era.id ∈ (_recomputeWeekMap s).eraIdsAt w ↔
      ¬(era.startDate > (getWeekRange b w).stop) ∧
        ¬(∃ e, era.endDate = some e ∧ e < (getWeekRange b w).start) := by
  rw [recompute_eraIdsAt_mem s b hb hnd era hera w h0 h1]
  exact isEraActiveInWeek_eq_true_iff era.startDate (getWeekRange b w).start
    (getWeekRange b w).stop era.endDate

def c1Era : LifeEra :=
  { id := "era-1", title := "School", startDate := 0, endDate := some 13
    color := "#FF5733", category := EraCategory.education }

def c1State : LifeCalendarState :=
  { birthDate := some 0, lifeExpectancy := 1, eras := [c1Era], events := []
    weekMap := WeekMap.empty }

theorem C1_witness :
    c1Era.id ∈ (_recomputeWeekMap c1State).eraIdsAt 1 :=
  (C1_era_active_iff c1State 0 rfl (by decide) c1Era (by decide) 1 (by decide)
      (by decide)).mpr
    (by
      refine ⟨by decide, ?_⟩
      rintro ⟨e, he, hlt⟩
      rw [show c1Era.endDate = some 13 from rfl, Option.some.injEq] at he
      rw [← he] at hlt
      exact absurd hlt (by decide))

/-- C2: for a period event (with an end date) in a state whose event ids
are unique, after a rebuild the event's id is in a week's `eventIds` iff
the week index lies in the closed range
`[max(0, weekIndexOf(birth, date)), min(totalWeeks-1, weekIndexOf(birth, endDate))]`,
and it appears at most once per week. -/
theorem C2_period_event_span (s : LifeCalendarState) (b : Int)
    (hb : s.birthDate = some b) (hnd : (s.events.map LifeEvent.id).Nodup)
    (ev : LifeEvent) (hev : ev ∈ s.events) (ed : Int) (hed : ev.endDate = some ed)
    (w : Int) :
    (ev.id ∈ (_recomputeWeekMap s).eventIdsAt w ↔
      max 0 (getWeekIndex b ev.date) ≤ w ∧
        w ≤ min (s.lifeExpectancy * WEEKS_PER_YEAR - 1) (getWeekIndex b ed)) ∧
    ((_recomputeWeekMap s).eventIdsAt w).count ev.id ≤ 1 := by
  have hcnt := recompute_eventIdsAt_count s b hb hnd ev hev w
  constructor
  · rw [recompute_eventIdsAt_mem s b hb hnd ev hev w,
      eventCoversWeek_period_iff b (s.lifeExpectancy * WEEKS_PER_YEAR) ev ed hed w]
  · rw [hcnt]
    split
    · omega
    · omega

def c2Event : LifeEvent :=
  { id := "ev-2", date := 35, endDate := some 49, title := "Trip" }

def c2State : LifeCalendarState :=
  { birthDate := some 0, lifeExpectancy := 1, eras := [], events := [c2Event]
    weekMap := WeekMap.empty }

theorem C2_witness :
    c2Event.id ∈ (_recomputeWeekMap c2State).eventIdsAt 5 ∧
    c2Event.id ∈ (_recomputeWeekMap c2State).eventIdsAt 6 ∧
    c2Event.id ∈ (_recomputeWeekMap c2State).eventIdsAt 7 ∧
    c2Event.id ∉ (_recomputeWeekMap c2State).eventIdsAt 4 ∧
    c2Event.id ∉ (_recomputeWeekMap c2State).eventIdsAt 8 ∧
    ((_recomputeWeekMap c2State).eventIdsAt 6).count c2Event.id ≤ 1 := by
  refine ⟨?_, ?_, ?_, ?_, ?_, ?_⟩
  · exact (C2_period_event_span c2State 0 rfl (by decide) c2Event (by decide) 49 rfl 5).1.mpr
      (by decide)
  · exact (C2_period_event_span c2State 0 rfl (by decide) c2Event (by decide) 49 rfl 6).1.mpr
      (by decide)
  · exact (C2_period_event_span c2State 0 rfl (by decide) c2Event (by decide) 49 rfl 7).1.mpr
      (by decide)
  · intro h
    exact absurd ((C2_period_event_span c2State 0 rfl (by decide) c2Event (by decide) 49
      rfl 4).1.mp h) (by decide)
  · intro h
    exact absurd ((C2_period_event_span c2State 0 rfl (by decide) c2Event (by decide) 49
      rfl 8).1.mp h) (by decide)
  · exact (C2_period_event_span c2State 0 rfl (by decide) c2Event (by decide) 49 rfl 6).2

/-- C3: `getWeekData` returns `none` iff no birth date is set or the index
is out of `[0, lifeExpectancy*52)`; it is a total function (it can never
throw), and whenever it returns a record, the record's `activeEras` and
`events` are the current index entry's id lists (empty when absent). -/
theorem getWeekData_none_of_no_birth (today : Int) (s : LifeCalendarState)
    (h : s.birthDate = none) (w : Int) : getWeekData today s w = none := by
  unfold getWeekData
  rw [h]

theorem getWeekData_none_of_out (today : Int) (s : LifeCalendarState) (b w : Int)
    (hb : s.birthDate = some b) (hr : w < 0 ∨ s.lifeExpectancy * WEEKS_PER_YEAR ≤ w) :
    getWeekData today s w = none := by
  unfold getWeekData
  rw [hb]
  exact if_pos hr

theorem getWeekData_some_of_in (today : Int) (s : LifeCalendarState) (b w : Int)
    (hb : s.birthDate = some b) (hr : ¬(w < 0 ∨ s.lifeExpectancy * WEEKS_PER_YEAR ≤ w)) :
    getWeekData today s w = some
      { index := w
        year := (weekIndexToPosition w).year
        weekOfYear := (weekIndexToPosition w).weekOfYear
        startDate := (getWeekRange b w).start
        endDate := (getWeekRange b w).stop
        isPast := isWeekPast today (getWeekRange b w).stop
        isCurrentWeek := isCurrentWeek today (getWeekRange b w).start (getWeekRange b w).stop
        activeEras := ((s.weekMap w).map WeekEntry.eraIds).getD []
        events := ((s.weekMap w).map WeekEntry.eventIds).getD [] } := by
  unfold getWeekData
  rw [hb]
  exact if_neg hr

theorem C3_getWeekData_contract (today : Int) (s : LifeCalendarState) (w : Int) :
    (getWeekData today s w = none ↔
      s.birthDate = none ∨ w < 0 ∨ s.lifeExpectancy * WEEKS_PER_YEAR ≤ w) ∧
    (∀ wd : WeekData, getWeekData today s w = some wd →
      wd.activeEras = ((s.weekMap w).map WeekEntry.eraIds).getD [] ∧
      wd.events = ((s.weekMap w).map WeekEntry.eventIds).getD []) := by
  cases hb : s.birthDate with
  | none =>
      refine ⟨?_, ?_⟩
      · simp [getWeekData_none_of_no_birth today s hb w]
      · intro wd hwd
        rw [getWeekData_none_of_no_birth today s hb w] at hwd
        exact absurd hwd (by simp)
  | some b =>
      by_cases hr : w < 0 ∨ s.lifeExpectancy * WEEKS_PER_YEAR ≤ w
      · refine ⟨?_, ?_⟩
        · simp only [getWeekData_none_of_out today s b w hb hr, hb]
          simp [hr]
        · intro wd hwd
          rw [getWeekData_none_of_out today s b w hb hr] at hwd
          exact absurd hwd (by simp)
      · refine ⟨?_, ?_⟩
        · simp only [getWeekData_some_of_in today s b w hb hr, hb]
          simp
          omega
        · intro wd hwd
          rw [getWeekData_some_of_in today s b w hb hr, Option.some.injEq] at hwd
          rw [← hwd]
          exact ⟨rfl, rfl⟩

def c3Era : LifeEra :=
  { id := "era-3", title := "Era", startDate := 0, endDate := none
    color := "#123456", category := EraCategory.work }

def c3Base : LifeCalendarState :=
  { birthDate := some 0, lifeExpectancy := 1, eras := [c3Era], events := []
    weekMap := WeekMap.empty }

def c3State : LifeCalendarState :=
  { c3Base with weekMap := _recomputeWeekMap c3Base }

theorem C3_witness :
    getWeekData 0 c3State (-1) = none ∧
    ({ index := 0, year := 0, weekOfYear := 0, startDate := 0, endDate := 7
       isPast := false, isCurrentWeek := true
       activeEras := ["era-3"], events := [] } : WeekData).activeEras
      = ((c3State.weekMap 0).map WeekEntry.eraIds).getD [] := by
  constructor
  · exact (C3_getWeekData_contract 0 c3State (-1)).1.mpr (Or.inr (Or.inl (by decide)))
  · exact ((C3_getWeekData_contract 0 c3State 0).2 _ (by decide)).1

/-- C8: with birth date 2000-01-01 and the default life expectancy 80,
`getTotalWeeks` is 4160, week 0 runs from 2000-01-01 to 2000-01-08,
2000-01-10 falls in week index 1, and index 4159 sits at
`{year: 79, weekOfYear: 51}`. -/
theorem C8_concrete_scenario (today : Int) :
    getTotalWeeks (setBirthDate initialState (civilToDay 2000 1 1)) = 4160 ∧
    (getWeekData today (setBirthDate initialState (civilToDay 2000 1 1)) 0).map
      WeekData.startDate = some (civilToDay 2000 1 1) ∧
    (getWeekData today (setBirthDate initialState (civilToDay 2000 1 1)) 0).map
      WeekData.endDate = some (civilToDay 2000 1 8) ∧
    getWeekIndex (civilToDay 2000 1 1) (civilToDay 2000 1 10) = 1 ∧
    weekIndexToPosition 4159 = { year := 79, weekOfYear := 51 } := by
  refine ⟨by decide, ?_, ?_, by decide, by decide⟩
  · rfl
  · rfl

/-- C9: on a state whose index is consistent with its data, `updateEra`,
`removeEra`, `updateEvent` and `removeEvent` called with an id not present
in the respective collection leave the whole state (profile, both
collections, and the rebuilt index) unchanged, and signal no error. -/
theorem C9_unknown_id_noop (s : LifeCalendarState) (id : String)
    (u : EraUpdates) (uv : EventUpdates)
    (hinv : s.weekMap = _recomputeWeekMap s) :
    ((∀ e ∈ s.eras, e.id ≠ id) → updateEra s id u = s ∧ removeEra s id = s) ∧
    ((∀ e ∈ s.events, e.id ≠ id) → updateEvent s id uv = s ∧ removeEvent s id = s) := by
  constructor
  · intro h
    have hmap : s.eras.map
        (fun era : LifeEra => if era.id = id then applyEraUpdates era u else era) = s.eras := by
      rw [show s.eras.map
          (fun era : LifeEra => if era.id = id then applyEraUpdates era u else era)
          = s.eras.map (fun era => era) from
        List.map_congr_left (fun e he => if_neg (h e he))]
      exact List.map_id' s.eras
    have hfil : s.eras.filter (fun era : LifeEra => era.id ≠ id) = s.eras :=
      List.filter_eq_self.mpr (fun e he => by simpa using h e he)
    constructor
    · refine LifeCalendarState.ext' rfl rfl hmap rfl ?_
      show _recomputeWeekMap _ = s.weekMap
      rw [hmap]
      exact hinv.symm
    · refine LifeCalendarState.ext' rfl rfl hfil rfl ?_
      show _recomputeWeekMap _ = s.weekMap
      rw [hfil]
      exact hinv.symm
  · intro h
    have hmap : s.events.map
        (fun ev : LifeEvent => if ev.id = id then applyEventUpdates ev uv else ev) = s.events := by
      rw [show s.events.map
          (fun ev : LifeEvent => if ev.id = id then applyEventUpdates ev uv else ev)
          = s.events.map (fun ev => ev) from
        List.map_congr_left (fun e he => if_neg (h e he))]
      exact List.map_id' s.events
    have hfil : s.events.filter (fun ev : LifeEvent => ev.id ≠ id) = s.events :=
      List.filter_eq_self.mpr (fun e he => by simpa using h e he)
    constructor
    · refine LifeCalendarState.ext' rfl rfl rfl hmap ?_
      show _recomputeWeekMap _ = s.weekMap
      rw [hmap]
      exact hinv.symm
    · refine LifeCalendarState.ext' rfl rfl rfl hfil ?_
      show _recomputeWeekMap _ = s.weekMap
      rw [hfil]
      exact hinv.symm

def c9Era : LifeEra :=
  { id := "era-9", title := "Era", startDate := 0, endDate := none
    color := "#abc", category := EraCategory.work }

def c9Base : LifeCalendarState :=
  { birthDate := some 0, lifeExpectancy := 1, eras := [c9Era], events := []
    weekMap := WeekMap.empty }

def c9State : LifeCalendarState :=
  { c9Base with weekMap := _recomputeWeekMap c9Base }

theorem C9_witness :
    updateEra c9State "zzz" {} = c9State ∧ removeEvent c9State "zzz" = c9State :=
  ⟨((C9_unknown_id_noop c9State "zzz" {} {} rfl).1 (by decide)).1,
   ((C9_unknown_id_noop c9State "zzz" {} {} rfl).2 (by decide)).2⟩

/-- C10: because `getWeekIndex` truncates toward zero, a point event whose
(zeroed) date lies strictly within the six days before the (zeroed) birth
date gets week index 0 and is recorded in the rebuilt index's entry for
week 0 (when the grid is non-empty) instead of being dropped; a point
event seven or more days before the birth date gets a negative index and
contributes nothing. -/
theorem C10_prebirth_point_event (s : LifeCalendarState) (b : Int)
    (hb : s.birthDate = some b) (hnd : (s.events.map LifeEvent.id).Nodup)
    (ev : LifeEvent) (hev : ev ∈ s.events) (hed : ev.endDate = none) :
    ((b - 6 ≤ ev.date ∧ ev.date < b) →
      getWeekIndex b ev.date = 0 ∧
      (0 < s.lifeExpectancy * WEEKS_PER_YEAR →
        ev.id ∈ (_recomputeWeekMap s).eventIdsAt 0)) ∧
    (ev.date ≤ b - 7 →
      getWeekIndex b ev.date < 0 ∧
      ∀ w : Int, ev.id ∉ (_recomputeWeekMap s).eventIdsAt w) := by
  constructor
  · rintro ⟨h1, h2⟩
    have hz := getWeekIndex_small_neg b ev.date h1 h2
    refine ⟨hz, fun htw => ?_⟩
    rw [recompute_eventIdsAt_mem s b hb hnd ev hev 0,
      eventCoversWeek_point_iff b (s.lifeExpectancy * WEEKS_PER_YEAR) ev hed 0]
    exact ⟨hz, le_refl 0, htw⟩
  · intro h
    have hneg := getWeekIndex_le_neg_seven b ev.date h
    refine ⟨hneg, fun w hmem => ?_⟩
    rw [recompute_eventIdsAt_mem s b hb hnd ev hev w,
      eventCoversWeek_point_iff b (s.lifeExpectancy * WEEKS_PER_YEAR) ev hed w] at hmem
    omega

def c10Event : LifeEvent :=
  { id := "ev-10", date := -3, endDate := none, title := "Almost born" }

def c10State : LifeCalendarState :=
  { birthDate := some 0, lifeExpectancy := 1, eras := [], events := [c10Event]
    weekMap := WeekMap.empty }

theorem C10_witness :
    getWeekIndex 0 c10Event.date = 0 ∧
    c10Event.id ∈ (_recomputeWeekMap c10State).eventIdsAt 0 := by
  have h := (C10_prebirth_point_event c10State 0 rfl (by decide) c10Event (by decide)
    rfl).1 (by decide)
  exact ⟨h.1, h.2 (by decide)⟩

/-- C5 counterexample: `setLifeExpectancy` stores its argument as given —
calling it with 200 leaves 200 in the state, not the clamp
`min 120 (max 50 200) = 120` that the claim demands. -/
theorem C5_counterexample :
    (setLifeExpectancy initialState 200).lifeExpectancy = 200 ∧
    min 120 (max 50 (200 : Int)) = 120 ∧
    (setLifeExpectancy initialState 200).lifeExpectancy ≠ min 120 (max 50 (200 : Int)) := by
  refine ⟨rfl, by decide, by decide⟩

/-- C5 (amended): `setLifeExpectancy(years)` stores `years` unchanged — no
clamping to [50,120] is performed — leaves the profile and collections
otherwise untouched, and rebuilds the AnnotationIndex before returning. -/
theorem C5_amended (s : LifeCalendarState) (years : Int) :
    (setLifeExpectancy s years).lifeExpectancy = years ∧
    (setLifeExpectancy s years).birthDate = s.birthDate ∧
    (setLifeExpectancy s years).eras = s.eras ∧
    (setLifeExpectancy s years).events = s.events ∧
    (setLifeExpectancy s years).weekMap = _recomputeWeekMap (setLifeExpectancy s years) := by
  exact ⟨rfl, rfl, rfl, rfl, rfl⟩

def c7Era : LifeEra :=
  { id := "era-7", title := "Beyond the grid", startDate := 364, endDate := none
    color := "#fff", category := EraCategory.other }

def c7Event : LifeEvent :=
  { id := "ev-7", date := -1, endDate := none, title := "Before birth" }

def c7State : LifeCalendarState :=
  { birthDate := some 0, lifeExpectancy := 1, eras := [c7Era], events := [c7Event]
    weekMap := WeekMap.empty }

/-- C7 counterexample: with birth date 0 and a 52-week grid
(`totalWeeks·7 = 364` days), an era starting exactly at day 364 — entirely
outside the half-open range `[0, 364)` — is still recorded in the last
week's entry (the closed week interval `[357, 364]` touches it), and a
point event dated one day before birth — also outside the range — is
recorded in week 0 (truncation clamps its index to 0).  Both contradict
the claim that such items contribute zero week entries. -/
theorem C7_counterexample :
    (0 : Int) + 7 * ((1 : Int) * WEEKS_PER_YEAR) ≤ c7Era.startDate ∧
    c7Era.id ∈ (_recomputeWeekMap c7State).eraIdsAt 51 ∧
    c7Event.date < 0 ∧
    c7Event.id ∈ (_recomputeWeekMap c7State).eventIdsAt 0 := by
  refine ⟨by decide, by decide, by decide, by decide⟩

/-- C7 (amended): the index rebuild is total and the following items
contribute zero week entries: an era that ends before the birth date or
starts strictly after `birthDate + totalWeeks·7` (an era starting exactly
at `birthDate + totalWeeks·7`, though outside the half-open grid range,
still touches the closed last week); a point event dated seven or more
days before birth or at/after the grid end (a point event within six days
before birth is clamped into week 0); and a period event whose clamped
`endIndex` is smaller than its clamped `startIndex` (malformed period). -/
theorem C7_amended (s : LifeCalendarState) (b : Int)
    (hb : s.birthDate = some b)
    (hndEra : (s.eras.map LifeEra.id).Nodup)
    (hndEv : (s.events.map LifeEvent.id).Nodup) :
    (∀ era ∈ s.eras,
      ((∃ e, era.endDate = some e ∧ e < b) ∨
        b + 7 * (s.lifeExpectancy * WEEKS_PER_YEAR) < era.startDate) →
      ∀ w : Int, era.id ∉ (_recomputeWeekMap s).eraIdsAt w) ∧
    (∀ ev ∈ s.events, ev.endDate = none →
      (ev.date ≤ b - 7 ∨ b + 7 * (s.lifeExpectancy * WEEKS_PER_YEAR) ≤ ev.date) →
      ∀ w : Int, ev.id ∉ (_recomputeWeekMap s).eventIdsAt w) ∧
    (∀ ev ∈ s.events, ∀ ed : Int, ev.endDate = some ed →
      min (s.lifeExpectancy * WEEKS_PER_YEAR - 1) (getWeekIndex b ed) <
        max 0 (getWeekIndex b ev.date) →
      ∀ w : Int, ev.id ∉ (_recomputeWeekMap s).eventIdsAt w) := by
  refine ⟨?_, ?_, ?_⟩
  · intro era hera hout w hmem
    by_cases hin : 0 ≤ w ∧ w < s.lifeExpectancy * WEEKS_PER_YEAR
    · rw [recompute_eraIdsAt_mem s b hb hndEra era hera w hin.1 hin.2] at hmem
      simp only [eraActiveAt] at hmem
      rw [isEraActiveInWeek_eq_true_iff] at hmem
      rcases hout with ⟨e, hee, helt⟩ | hstart
      · exact hmem.2 ⟨e, hee, by
          have : (getWeekRange b w).start = b + 7 * w := rfl
          omega⟩
      · exact hmem.1 (by
          have : (getWeekRange b w).stop = b + 7 * w + 7 := rfl
          omega)
    · exact recompute_eraIdsAt_out s b hb w hin era.id hmem
  · intro ev hev hed hout w hmem
    rw [recompute_eventIdsAt_mem s b hb hndEv ev hev w,
      eventCoversWeek_point_iff b (s.lifeExpectancy * WEEKS_PER_YEAR) ev hed w] at hmem
    rcases hout with hbefore | hafter
    · have := getWeekIndex_le_neg_seven b ev.date hbefore
      omega
    · by_cases htw : 0 ≤ s.lifeExpectancy * WEEKS_PER_YEAR
      · have := getWeekIndex_ge b ev.date (s.lifeExpectancy * WEEKS_PER_YEAR) htw hafter
        omega
      · omega
  · intro ev hev ed hed hlt w hmem
    rw [recompute_eventIdsAt_mem s b hb hndEv ev hev w,
      eventCoversWeek_period_iff b (s.lifeExpectancy * WEEKS_PER_YEAR) ev ed hed w] at hmem
    omega

def c7wEra : LifeEra :=
  { id := "era-7w", title := "Ancient", startDate := -20, endDate := some (-5)
    color := "#000", category := EraCategory.location }

def c7wPoint : LifeEvent :=
  { id := "ev-7a", date := -10, endDate := none, title := "Long before birth" }

def c7wPeriod : LifeEvent :=
  { id := "ev-7b", date := 20, endDate := some 10, title := "End before start" }

def c7wState : LifeCalendarState :=
  { birthDate := some 0, lifeExpectancy := 1, eras := [c7wEra]
    events := [c7wPoint, c7wPeriod], weekMap := WeekMap.empty }

theorem C7_amended_witness :
    c7wEra.id ∉ (_recomputeWeekMap c7wState).eraIdsAt 0 ∧
    c7wPoint.id ∉ (_recomputeWeekMap c7wState).eventIdsAt 0 ∧
    c7wPeriod.id ∉ (_recomputeWeekMap c7wState).eventIdsAt 2 := by
  have h := C7_amended c7wState 0 rfl (by decide) (by decide)
  refine ⟨?_, ?_, ?_⟩
  · exact h.1 c7wEra (by decide) (Or.inl ⟨-5, rfl, by decide⟩) 0
  · exact h.2.1 c7wPoint (by decide) rfl (Or.inl (by decide)) 0
  · exact h.2.2 c7wPeriod (by decide) 10 rfl (by decide) 2

/-! ## Import/Export codec (src/lib/schemas.ts, src/lib/importExport.ts)

`JSON.parse` is modelled abstractly: an input string either parses to a
`Json` value or throws `SyntaxError` (modelled as `none`).  JSON numbers
are modelled as `Int` (so Zod's `.int()` refinement is vacuous here), and
`z.coerce.date()` is modelled at day granularity: ISO strings of shape
`YYYY-MM-DD`, optionally followed by a `T…` time suffix, parse as a civil
date; JS's `new Date(number)` (ms timestamp), `new Date(bool)` and
`new Date(null)` all produce valid dates and are modelled as such; other
JSON values are invalid dates (JS's exotic `new Date([])` corner is not
modelled). -/

inductive Json where
  | null
  | bool (b : Bool)
  | num (n : Int)
  | str (s : String)
  | arr (items : List Json)
  | obj (fields : List (String × Json))

/-- One Zod issue: a path into the document plus a message, as exposed by
`result.error.errors` (`e.path`, `e.message`). -/
structure Issue where
  path : List String
  message : String
deriving DecidableEq, Repr

/-- Error-collecting validation result, as produced by `safeParse`. -/
def Validated (α : Type) : Type := Except (List Issue) α

/-- Applicative combination collecting the issues of both sides, as Zod's
object parser does. -/
def vmap2 {α β γ : Type} (f : α → β → γ) (va : Validated α) (vb : Validated β) :
    Validated γ :=
  match va, vb with
  | Except.ok a, Except.ok b => Except.ok (f a b)
  | Except.error e1, Except.error e2 => Except.error (e1 ++ e2)
  | Except.error e1, Except.ok _ => Except.error e1
  | Except.ok _, Except.error e2 => Except.error e2

/-- Push a path segment (an object key or array index) onto every issue. -/
def vseg {α : Type} (seg : String) (v : Validated α) : Validated α :=
  match v with
  | Except.ok a => Except.ok a
  | Except.error es => Except.error (es.map (fun i => { i with path := seg :: i.path }))

/-- Field lookup in a JSON object. -/
def getField (fields : List (String × Json)) (k : String) : Option Json :=
  (fields.find? (fun p => p.1 = k)).map Prod.snd

def requireField {α : Type} (fields : List (String × Json)) (k : String)
    (f : Json → Validated α) : Validated α :=
  match getField fields k with
  | none => Except.error [{ path := [k], message := "Required" }]
  | some j => vseg k (f j)

def optionalField {α : Type} (fields : List (String × Json)) (k : String)
    (f : Json → Validated α) : Validated (Option α) :=
  match getField fields k with
  | none => Except.ok none
  | some j => vseg k ((f j).map Option.some)

/-- `.default(dflt)`: the default applies when the field is absent. -/
def fieldWithDefault {α : Type} (fields : List (String × Json)) (k : String)
    (dflt : α) (f : Json → Validated α) : Validated α :=
  match getField fields k with
  | none => Except.ok dflt
  | some j => vseg k (f j)

def digitVal (c : Char) : Int := (c.toNat : Int) - 48

/-- Parse an ISO-8601 date string (`YYYY-MM-DD`, optionally followed by a
`T…` time part) to an epoch day, rejecting invalid calendar dates —
modelling `new Date(string)` followed by Zod's invalid-date check. -/
def parseDateString (s : String) : Option Int :=
  match s.toList with
  | y1 :: y2 :: y3 :: y4 :: '-' :: m1 :: m2 :: '-' :: d1 :: d2 :: rest =>
      if ([y1, y2, y3, y4, m1, m2, d1, d2].all Char.isDigit)
          ∧ (rest = [] ∨ rest.head? = some 'T') then
        let y := 1000 * digitVal y1 + 100 * digitVal y2 + 10 * digitVal y3 + digitVal y4
        let m := 10 * digitVal m1 + digitVal m2
        let d := 10 * digitVal d1 + digitVal d2
        if 1 ≤ m ∧ m ≤ 12 ∧ 1 ≤ d ∧ d ≤ daysInMonth y m then
          some (civilToDay y m d)
        else none
      else none
  | _ => none

/-- `z.coerce.date()` = `new Date(input)` + validity check, at day
granularity. -/
def checkDate : Json → Validated Int
  | Json.str s =>
      match parseDateString s with
      | some d => Except.ok d
      | none => Except.error [{ path := [], message := "Invalid date" }]
  | Json.num n => Except.ok (Int.fdiv n 86400000)
  | Json.bool _ => Except.ok 0
  | Json.null => Except.ok 0
  | _ => Except.error [{ path := [], message := "Invalid date" }]

def isHexDigit (c : Char) : Bool :=
  c.isDigit ∨ ('a' ≤ c ∧ c ≤ 'f') ∨ ('A' ≤ c ∧ c ≤ 'F')

/-- The 8-4-4-4-12 shape checked by `z.string().uuid()`: 36 characters,
dashes at positions 8, 13, 18 and 23, hex digits elsewhere. -/
def isUuidString (s : String) : Bool :=
  let cs := s.toList
  cs.length = 36 ∧
    cs.enum.all (fun p =>
      if p.1 = 8 ∨ p.1 = 13 ∨ p.1 = 18 ∨ p.1 = 23 then p.2 = '-' else isHexDigit p.2)

def checkUuid : Json → Validated String
  | Json.str s =>
      if isUuidString s then Except.ok s
      else Except.error [{ path := [], message := "Invalid uuid" }]
  | _ => Except.error [{ path := [], message := "Expected string" }]

/-- `z.string().min(1, 'Title is required')` — note: the length check does
NOT trim leading/trailing whitespace. -/
def checkTitle : Json → Validated String
  | Json.str s =>
      if 1 ≤ s.length then Except.ok s
      else Except.error [{ path := [], message := "Title is required" }]
  | _ => Except.error [{ path := [], message := "Expected string" }]

def checkPlainString : Json → Validated String
  | Json.str s => Except.ok s
  | _ => Except.error [{ path := [], message := "Expected string" }]

/-- The regex `^#([0-9a-fA-F]{3}){1,2}$`. -/
def isHexColorString (s : String) : Bool :=
  match s.toList with
  | '#' :: rest => (rest.length = 3 ∨ rest.length = 6) ∧ rest.all isHexDigit
  | _ => false

def checkHexColor : Json → Validated String
  | Json.str s =>
      if isHexColorString s then Except.ok s
      else Except.error [{ path := [], message := "Must be a valid hex color" }]
  | _ => Except.error [{ path := [], message := "Expected string" }]

def checkCategory : Json → Validated EraCategory
  | Json.str s =>
      if s = "work" then Except.ok EraCategory.work
      else if s = "education" then Except.ok EraCategory.education
      else if s = "location" then Except.ok EraCategory.location
      else if s = "relationship" then Except.ok EraCategory.relationship
      else if s = "health" then Except.ok EraCategory.health
      else if s = "other" then Except.ok EraCategory.other
      else Except.error [{ path := [], message := "Invalid enum value" }]
  | _ => Except.error [{ path := [], message := "Expected string" }]

/-- `z.number().int().min(50).max(120)`; the `.int()` refinement is
vacuous under the `Int` model of JSON numbers. -/
def checkLifeExpectancy : Json → Validated Int
  | Json.num n =>
      if n < 50 then
        Except.error [{ path := [], message := "Number must be greater than or equal to 50" }]
      else if 120 < n then
        Except.error [{ path := [], message := "Number must be less than or equal to 120" }]
      else Except.ok n
  | _ => Except.error [{ path := [], message := "Expected number" }]

/-- `z.literal(1)` for the `version` field. -/
def checkVersion : Json → Validated Unit
  | Json.num 1 => Except.ok ()
  | _ => Except.error [{ path := [], message := "Invalid literal value, expected 1" }]

/-- `LifeEraSchema` on one array element. -/
def validateEra : Json → Validated LifeEra
  | Json.obj fields =>
      vmap2
        (fun (p : String × String) (q : (Int × Option Int) × (String × EraCategory)) =>
          { id := p.1, title := p.2, startDate := q.1.1, endDate := q.1.2
            color := q.2.1, category := q.2.2 })
        (vmap2 Prod.mk (requireField fields "id" checkUuid)
          (requireField fields "title" checkTitle))
        (vmap2 Prod.mk
          (vmap2 Prod.mk (requireField fields "startDate" checkDate)
            (optionalField fields "endDate" checkDate))
          (vmap2 Prod.mk (requireField fields "color" checkHexColor)
            (requireField fields "category" checkCategory)))
  | _ => Except.error [{ path := [], message := "Expected object" }]

/-- `LifeEventSchema` on one array element. -/
def validateEvent : Json → Validated LifeEvent
  | Json.obj fields =>
      vmap2
        (fun (p : (String × Int) × Option Int) (q : String × (Option String × Option String)) =>
          { id := p.1.1, date := p.1.2, endDate := p.2
            title := q.1, description := q.2.1, color := q.2.2 })
        (vmap2 Prod.mk
          (vmap2 Prod.mk (requireField fields "id" checkUuid)
            (requireField fields "date" checkDate))
          (optionalField fields "endDate" checkDate))
        (vmap2 Prod.mk (requireField fields "title" checkTitle)
          (vmap2 Prod.mk (optionalField fields "description" checkPlainString)
            (optionalField fields "color" checkHexColor)))
  | _ => Except.error [{ path := [], message := "Expected object" }]

/-- `z.array(elemSchema)` element loop, indexing issue paths from `i`. -/
def validateItems {α : Type} (f : Json → Validated α) : Nat → List Json → Validated (List α)
  | _, [] => Except.ok []
  | i, j :: js => vmap2 (fun a l => a :: l) (vseg (toString i) (f j)) (validateItems f (i + 1) js)

def validateArray {α : Type} (f : Json → Validated α) : Json → Validated (List α)
  | Json.arr items => validateItems f 0 items
  | _ => Except.error [{ path := [], message := "Expected array" }]

/-- The `data` payload of a validated document (`UserConfigOutput`). -/
structure UserConfigData where
  birthDate : Int
  lifeExpectancy : Int
  eras : List LifeEra
  events : List LifeEvent
deriving DecidableEq, Repr

/-- `UserConfigSchema`. -/
def validateUserConfig : Json → Validated UserConfigData
  | Json.obj fields =>
      vmap2
        (fun (p : Int × Int) (q : List LifeEra × List LifeEvent) =>
          { birthDate := p.1, lifeExpectancy := p.2, eras := q.1, events := q.2 })
        (vmap2 Prod.mk (requireField fields "birthDate" checkDate)
          (fieldWithDefault fields "lifeExpectancy" 80 checkLifeExpectancy))
        (vmap2 Prod.mk (fieldWithDefault fields "eras" [] (validateArray validateEra))
          (fieldWithDefault fields "events" [] (validateArray validateEvent)))
  | _ => Except.error [{ path := [], message := "Expected object" }]

/-- A validated export document (`ExportDataOutput`). -/
structure ExportDoc where
  exportedAt : Int
  data : UserConfigData
deriving DecidableEq, Repr

/-- `ExportDataSchema.safeParse` on a parsed JSON value. -/
def safeParseExportData : Json → Validated ExportDoc
  | Json.obj fields =>
      vmap2 (fun (p : Unit × Int) (d : UserConfigData) => { exportedAt := p.2, data := d })
        (vmap2 Prod.mk (requireField fields "version" checkVersion)
          (requireField fields "exportedAt" checkDate))
        (requireField fields "data" validateUserConfig)
  | _ => Except.error [{ path := [], message := "Expected object" }]

/-- `ImportResult` (src/lib/importExport.ts). -/
structure ImportResult where
  success : Bool
  data : Option UserConfigData := none
  error : Option String := none
deriving DecidableEq, Repr

/-- `e.path.join('.') + ': ' + e.message`. -/
def formatIssue (i : Issue) : String :=
  String.intercalate "." i.path ++ ": " ++ i.message

/-- `importCalendarData(json)`: a `none` input models a string on which
`JSON.parse` throws `SyntaxError`; otherwise validate and either return
the data or the formatted per-violation error text. -/
def importCalendarData : Option Json → ImportResult
  | none =>
      { success := false, error := some "Invalid JSON format. Please check the file contents." }
  | some j =>
      match safeParseExportData j with
      | Except.error issues =>
          { success := false
            error := some ("Validation failed:\n"
              ++ String.intercalate "\n" (issues.map formatIssue)) }
      | Except.ok ed => { success := true, data := some ed.data }

/-- The `{ success: boolean; error?: string }` value returned by the
store's `importData` action. -/
structure ImportOutcome where
  success : Bool
  error : Option String := none
deriving DecidableEq, Repr

/-- The store's `importData(json)` action: on validation success replace
all four data fields and rebuild the index; otherwise return the error
and leave the state untouched. -/
def importData (s : LifeCalendarState) (input : Option Json) :
    ImportOutcome × LifeCalendarState :=
  let result := importCalendarData input
  match result.success, result.data with
  | true, some d =>
      let s' := { s with
        birthDate := some d.birthDate
        lifeExpectancy := d.lifeExpectancy
        eras := d.eras
        events := d.events }
      ({ success := true }, { s' with weekMap := _recomputeWeekMap s' })
  | _, _ => ({ success := false, error := result.error }, s)

/-- C4: `importData` is all-or-nothing.  On any failure (malformed JSON or
any schema violation) the state is left exactly as it was and the result
carries a human-readable error message — for schema violations, the
`Validation failed` text listing each violation's path and message; only
on full validation success are `birthDate`, `lifeExpectancy`, `eras` and
`events` all replaced and the index rebuilt. -/
theorem C4_import_atomicity (s : LifeCalendarState) (input : Option Json) :
    ((importData s input).1.success = false →
      (importData s input).2 = s ∧ (importData s input).1.error.isSome = true) ∧
    ((importData s input).1.success = true →
      ∃ d : UserConfigData, (importCalendarData input).data = some d ∧
        (importData s input).2.birthDate = some d.birthDate ∧
        (importData s input).2.lifeExpectancy = d.lifeExpectancy ∧
        (importData s input).2.eras = d.eras ∧
        (importData s input).2.events = d.events ∧
        (importData s input).2.weekMap = _recomputeWeekMap (importData s input).2) ∧
    (∀ (j : Json) (issues : List Issue), input = some j →
      safeParseExportData j = Except.error issues →
      (importData s input).1.error =
        some ("Validation failed:\n" ++ String.intercalate "\n" (issues.map formatIssue))) := by
  cases input with
  | none =>
      refine ⟨fun _ => ⟨rfl, rfl⟩, fun h => Bool.noConfusion h, fun j issues hj _ => nomatch hj⟩
  | some j =>
      have hstep : importCalendarData (some j) =
          match safeParseExportData j with
          | Except.error issues =>
              { success := false
                error := some ("Validation failed:\n"
                  ++ String.intercalate "\n" (issues.map formatIssue)) }
          | Except.ok ed => { success := true, data := some ed.data } := rfl
      cases hs : safeParseExportData j with
      | error issues =>
          have hres : importCalendarData (some j) =
              { success := false
                error := some ("Validation failed:\n"
                  ++ String.intercalate "\n" (issues.map formatIssue)) } := by
            rw [hstep, hs]
          have himp : importData s (some j) =
              ({ success := false
                 error := some ("Validation failed:\n"
                   ++ String.intercalate "\n" (issues.map formatIssue)) }, s) := by
            unfold importData
            rw [hres]
          refine ⟨fun _ => ?_, fun h => ?_, fun j' issues' hj hsp => ?_⟩
          · rw [himp]
            exact ⟨rfl, rfl⟩
          · rw [himp] at h
            exact Bool.noConfusion h
          · cases hj
            rw [hs] at hsp
            injection hsp with h'
            subst h'
            rw [himp]
      | ok ed =>
          have hres : importCalendarData (some j) =
              { success := true, data := some ed.data } := by
            rw [hstep, hs]
          have himp : importData s (some j) =
              ({ success := true },
                { birthDate := some ed.data.birthDate
                  lifeExpectancy := ed.data.lifeExpectancy
                  eras := ed.data.eras
                  events := ed.data.events
                  weekMap := _recomputeWeekMap
                    { birthDate := some ed.data.birthDate
                      lifeExpectancy := ed.data.lifeExpectancy
                      eras := ed.data.eras
                      events := ed.data.events
                      weekMap := s.weekMap } }) := by
            unfold importData
            rw [hres]
          refine ⟨fun h => ?_, fun _ => ?_, fun j' issues' hj hsp => ?_⟩
          · rw [himp] at h
            exact Bool.noConfusion h
          · refine ⟨ed.data, ?_, ?_, ?_, ?_, ?_, ?_⟩
            · rw [hres]
            · rw [himp]
            · rw [himp]
            · rw [himp]
            · rw [himp]
            · rw [himp]
              exact rfl
          · cases hj
            rw [hs] at hsp
            exact Except.noConfusion hsp

theorem C4_witness :
    (importData initialState none).2 = initialState ∧
    (importData initialState none).1.error.isSome = true :=
  (C4_import_atomicity initialState none).1 rfl

def c6EraJson : Json :=
  Json.obj [("id", Json.str "123e4567-e89b-12d3-a456-426614174000"),
    ("title", Json.str " "), ("startDate", Json.str "2000-01-01"),
    ("color", Json.str "#FF5733"), ("category", Json.str "work")]

/-- A fully valid export document except that its one era's title is a
single space — non-empty as a string, but empty after trimming. -/
def c6Doc : Json :=
  Json.obj [("version", Json.num 1), ("exportedAt", Json.str "2026-01-01"),
    ("data", Json.obj [("birthDate", Json.str "2000-01-01"),
      ("lifeExpectancy", Json.num 80),
      ("eras", Json.arr [c6EraJson]), ("events", Json.arr [])])]

/-- C6 counterexample: the era title `" "` is whitespace-only (it trims to
the empty string), yet the import succeeds and stores the era — the
schema's `min(1)` length check does not trim, so the claim's ``non-empty
after trimming'' rule is not enforced. -/
theorem C6_counterexample :
    " ".toList.all Char.isWhitespace = true ∧ " " ≠ "" ∧
    (importData initialState (some c6Doc)).1.success = true ∧
    (importData initialState (some c6Doc)).2.eras ≠ [] := by
  refine ⟨by decide, by decide, by decide, by decide⟩

/-! Error-propagation lemmas for the validator. -/

def Validated.isErr {α : Type} : Validated α → Bool
  | Except.error _ => true
  | Except.ok _ => false

theorem vmap2_isErr_left {α β γ : Type} (f : α → β → γ) (va : Validated α)
    (vb : Validated β) (h : va.isErr = true) : (vmap2 f va vb).isErr = true := by
  cases va with
  | error e => cases vb <;> rfl
  | ok a => exact absurd h (by simp [Validated.isErr])

theorem vmap2_isErr_right {α β γ : Type} (f : α → β → γ) (va : Validated α)
    (vb : Validated β) (h : vb.isErr = true) : (vmap2 f va vb).isErr = true := by
  cases vb with
  | error e => cases va <;> rfl
  | ok b => exact absurd h (by simp [Validated.isErr])

theorem vseg_isErr {α : Type} (seg : String) (v : Validated α)
    (h : v.isErr = true) : (vseg seg v).isErr = true := by
  cases v with
  | error e => rfl
  | ok a => exact absurd h (by simp [Validated.isErr])

theorem requireField_isErr {α : Type} (fields : List (String × Json)) (k : String)
    (f : Json → Validated α) (j : Json) (hf : getField fields k = some j)
    (h : (f j).isErr = true) : (requireField fields k f).isErr = true := by
  unfold requireField
  rw [hf]
  exact vseg_isErr k (f j) h

theorem fieldWithDefault_isErr {α : Type} (fields : List (String × Json)) (k : String)
    (dflt : α) (f : Json → Validated α) (j : Json) (hf : getField fields k = some j)
    (h : (f j).isErr = true) : (fieldWithDefault fields k dflt f).isErr = true := by
  unfold fieldWithDefault
  rw [hf]
  exact vseg_isErr k (f j) h

theorem validateItems_isErr {α : Type} (f : Json → Validated α) (j : Json)
    (h : (f j).isErr = true) :
    ∀ (items : List Json) (i : Nat), j ∈ items → (validateItems f i items).isErr = true := by
  intro items
  induction items with
  | nil =>
      intro i hmem
      exact absurd hmem (List.not_mem_nil j)
  | cons x xs ih =>
      intro i hmem
      rcases List.mem_cons.mp hmem with rfl | hmem'
      · exact vmap2_isErr_left _ _ _ (vseg_isErr _ _ h)
      · exact vmap2_isErr_right _ _ _ (ih (i + 1) hmem')

theorem validateArray_isErr {α : Type} (f : Json → Validated α) (items : List Json)
    (j : Json) (hmem : j ∈ items) (h : (f j).isErr = true) :
    (validateArray f (Json.arr items)).isErr = true :=
  validateItems_isErr f j h items 0 hmem

theorem validateEra_isErr_of_empty_title (itemFields : List (String × Json))
    (ht : getField itemFields "title" = some (Json.str "")) :
    (validateEra (Json.obj itemFields)).isErr = true := by
  have h1 := requireField_isErr itemFields "title" checkTitle (Json.str "") ht (by decide)
  exact vmap2_isErr_left _ _ _ (vmap2_isErr_right _ _ _ h1)

theorem validateEvent_isErr_of_empty_title (itemFields : List (String × Json))
    (ht : getField itemFields "title" = some (Json.str "")) :
    (validateEvent (Json.obj itemFields)).isErr = true := by
  have h1 := requireField_isErr itemFields "title" checkTitle (Json.str "") ht (by decide)
  exact vmap2_isErr_right _ _ _ (vmap2_isErr_left _ _ _ h1)

theorem validateUserConfig_isErr_era (dataFields : List (String × Json))
    (items : List Json) (itemFields : List (String × Json))
    (he : getField dataFields "eras" = some (Json.arr items))
    (hmem : Json.obj itemFields ∈ items)
    (ht : getField itemFields "title" = some (Json.str "")) :
    (validateUserConfig (Json.obj dataFields)).isErr = true := by
  have h1 := validateArray_isErr validateEra items (Json.obj itemFields) hmem
    (validateEra_isErr_of_empty_title itemFields ht)
  exact vmap2_isErr_right _ _ _ (vmap2_isErr_left _ _ _
    (fieldWithDefault_isErr dataFields "eras" [] (validateArray validateEra)
      (Json.arr items) he h1))

theorem validateUserConfig_isErr_event (dataFields : List (String × Json))
    (items : List Json) (itemFields : List (String × Json))
    (he : getField dataFields "events" = some (Json.arr items))
    (hmem : Json.obj itemFields ∈ items)
    (ht : getField itemFields "title" = some (Json.str "")) :
    (validateUserConfig (Json.obj dataFields)).isErr = true := by
  have h1 := validateArray_isErr validateEvent items (Json.obj itemFields) hmem
    (validateEvent_isErr_of_empty_title itemFields ht)
  exact vmap2_isErr_right _ _ _ (vmap2_isErr_right _ _ _
    (fieldWithDefault_isErr dataFields "events" [] (validateArray validateEvent)
      (Json.arr items) he h1))

theorem safeParse_isErr_data (fields : List (String × Json)) (dj : Json)
    (hd : getField fields "data" = some dj)
    (h : (validateUserConfig dj).isErr = true) :
    (safeParseExportData (Json.obj fields)).isErr = true :=
  vmap2_isErr_right _ _ _ (requireField_isErr fields "data" validateUserConfig dj hd h)

theorem isErr_exists {α : Type} (v : Validated α) (h : v.isErr = true) :
    ∃ es, v = Except.error es := by
  cases v with
  | error es => exact ⟨es, rfl⟩
  | ok a => exact absurd h (by simp [Validated.isErr])

theorem importCalendarData_some_eq (j : Json) :
    importCalendarData (some j) =
      match safeParseExportData j with
      | Except.error issues =>
          { success := false
            error := some ("Validation failed:\n"
              ++ String.intercalate "\n" (issues.map formatIssue)) }
      | Except.ok ed => { success := true, data := some ed.data } := rfl

theorem importData_fail_of_parse_error (s : LifeCalendarState) (j : Json)
    (h : (safeParseExportData j).isErr = true) :
    (importData s (some j)).1.success = false ∧ (importData s (some j)).2 = s := by
  obtain ⟨issues, hs⟩ := isErr_exists _ h
  have hres : importCalendarData (some j) =
      { success := false
        error := some ("Validation failed:\n"
          ++ String.intercalate "\n" (issues.map formatIssue)) } := by
    rw [importCalendarData_some_eq, hs]
  have himp : importData s (some j) =
      ({ success := false
         error := some ("Validation failed:\n"
           ++ String.intercalate "\n" (issues.map formatIssue)) }, s) := by
    unfold importData
    rw [hres]
  rw [himp]
  exact ⟨rfl, rfl⟩

/-- A document that contains (under `data.eras` or `data.events`) an
object whose `title` field is the empty string. -/
def hasEmptyTitleItem (j : Json) : Prop :=
  ∃ (fields dataFields : List (String × Json)) (itemsKey : String)
    (items : List Json) (itemFields : List (String × Json)),
    j = Json.obj fields ∧
    getField fields "data" = some (Json.obj dataFields) ∧
    (itemsKey = "eras" ∨ itemsKey = "events") ∧
    getField dataFields itemsKey = some (Json.arr items) ∧
    Json.obj itemFields ∈ items ∧
    getField itemFields "title" = some (Json.str "")

/-- C6 (amended): import validation rejects any document containing an era
or event whose title is the empty string (`min(1)` length check), and on
such a rejection nothing is imported.  Titles consisting only of
whitespace are not rejected — the check does not trim. -/
theorem C6_empty_title_rejected (s : LifeCalendarState) (j : Json)
    (h : hasEmptyTitleItem j) :
    (importData s (some j)).1.success = false ∧ (importData s (some j)).2 = s := by
  obtain ⟨fields, dataFields, itemsKey, items, itemFields, rfl, hdata, hkey, hitems, hmem,
    htitle⟩ := h
  apply importData_fail_of_parse_error
  apply safeParse_isErr_data fields (Json.obj dataFields) hdata
  rcases hkey with rfl | rfl
  · exact validateUserConfig_isErr_era dataFields items itemFields hitems hmem htitle
  · exact validateUserConfig_isErr_event dataFields items itemFields hitems hmem htitle

def c6wEraFields : List (String × Json) :=
  [("id", Json.str "123e4567-e89b-12d3-a456-426614174000"),
   ("title", Json.str ""), ("startDate", Json.str "2000-01-01"),
   ("color", Json.str "#FF5733"), ("category", Json.str "work")]

def c6wDataFields : List (String × Json) :=
  [("birthDate", Json.str "2000-01-01"), ("lifeExpectancy", Json.num 80),
   ("eras", Json.arr [Json.obj c6wEraFields]), ("events", Json.arr [])]

def c6wFields : List (String × Json) :=
  [("version", Json.num 1), ("exportedAt", Json.str "2026-01-01"),
   ("data", Json.obj c6wDataFields)]

def c6wDoc : Json := Json.obj c6wFields

theorem C6_amended_witness :
    (importData initialState (some c6wDoc)).1.success = false ∧
    (importData initialState (some c6wDoc)).2 = initialState :=
  C6_empty_title_rejected initialState c6wDoc
    ⟨c6wFields, c6wDataFields, "eras", [Json.obj c6wEraFields], c6wEraFields,
      rfl, rfl, Or.inl rfl, rfl, List.mem_cons_self _ _, rfl⟩
